import Mathlib

/-!
# janus-token: a verification development

A shallow embedding of `src/index.js` of the janus-token package: a token
generator that binds a resource identifier and an HTTP-request "integrity
score" into a signed token.

Modelling conventions, spelled out once:

* JavaScript strings are Lean `String`s.  The strings the claims exercise
  (IP addresses, identifiers, header values) are BMP text, where
  `charCodeAt` agrees with the code point, so `Char.toNat` models it.
* JavaScript numbers that carry scores are modelled as `ℚ` (the score
  formulas are exact rational arithmetic on small values).  The one place
  where IEEE-754 double behaviour is semantically load-bearing — the
  "pepper" accumulator, which can exceed 2^53 and overflow to Infinity —
  is modelled exactly as a double restricted to its reachable values
  (non-negative integers, Infinity, NaN), with round-to-nearest-even.
* External collaborators (the `fast-levenshtein` distance, the `brain`
  neural scorer, node's `url.parse`, the fresh `uuid.v4` value) enter as
  explicit function/value parameters bundled in `Collab`; the crypto hash
  (`crypto.createHash('sha256')`) is implemented concretely below; the
  `jsonwebtoken` codec is modelled at its wire contract (sign/verify with
  matching secret, issuer, audience).
* The success/failure continuation pairs of the source are modelled as
  `Except`: `.ok` is the success callback's argument, `.error` the failure
  callback's.
-/

/-! ## Small JavaScript helpers -/

/-- The module-level `blank = ''` of the source. -/
def blank : String := ""

/-- A boolean sub-test contributing `(b & 1)` to a score sum. -/
def b2q (b : Bool) : ℚ := if b then 1 else 0

/-- JavaScript truthiness of an optional string: `undefined`/`null` and the
empty string are falsy. -/
def jsFalsyStr (o : Option String) : Bool :=
  match o with
  | none => true
  | some s => s = ""

/-- String coercion JavaScript applies when concatenating a possibly-missing
value: `undefined + '✰'` yields the text `"undefined"`. -/
def jsCoerceStr (o : Option String) : String :=
  match o with
  | none => "undefined"
  | some s => s

/-! List-based string primitives.  Core `String.take`, `String.trim`,
`String.contains` and `String.toLower` go through `Substring` positions and
well-founded recursion, which the kernel cannot evaluate; the same functions
over `String.data` are structurally recursive and behave identically on the
strings involved here. -/

/-- The ASCII whitespace `String.prototype.trim` strips (JavaScript also
strips Unicode spaces, which do not occur in the claims' inputs). -/
def jsWhitespace (c : Char) : Bool :=
  c = ' ' || c = '\t' || c = '\n' || c = '\r' || c = '\x0b' || c = '\x0c'

/-- `s.trim()`. -/
def jsTrim (s : String) : String :=
  String.mk (((s.data.dropWhile jsWhitespace).reverse.dropWhile jsWhitespace).reverse)

/-- `s.substr(0, n)`: the first `n` characters. -/
def strTake (s : String) (n : ℕ) : String := String.mk (s.data.take n)

/-- `s.indexOf(c) !== -1` for a one-character needle. -/
def containsChar (s : String) (c : Char) : Bool := s.data.any (fun x => x = c)

/-- `s.toLowerCase()` on ASCII letters. -/
def strToLower (s : String) : String := String.mk (s.data.map Char.toLower)

/-! ## SHA-256, implemented concretely

`crypto.createHash('sha256').update(s).digest('hex')` over the UTF-8 bytes of
`s`.  Words are `Nat` kept below `2 ^ 32` by explicit reduction. -/

/-- Reduce to a 32-bit word. -/
def m32 (n : ℕ) : ℕ := n % 2 ^ 32

/-- 32-bit bitwise complement of a word already below `2 ^ 32`. -/
def not32 (n : ℕ) : ℕ := 2 ^ 32 - 1 - n

/-- Right-rotation of a 32-bit word by `k` bits. -/
def rotr (k n : ℕ) : ℕ := n / 2 ^ k + n % 2 ^ k * 2 ^ (32 - k)

/-- Logical right shift. -/
def shr (k n : ℕ) : ℕ := n / 2 ^ k

def bsig0 (n : ℕ) : ℕ := rotr 2 n ^^^ rotr 13 n ^^^ rotr 22 n

def bsig1 (n : ℕ) : ℕ := rotr 6 n ^^^ rotr 11 n ^^^ rotr 25 n

def ssig0 (n : ℕ) : ℕ := rotr 7 n ^^^ rotr 18 n ^^^ shr 3 n

def ssig1 (n : ℕ) : ℕ := rotr 17 n ^^^ rotr 19 n ^^^ shr 10 n

def shaCh (x y z : ℕ) : ℕ := x &&& y ^^^ (not32 x &&& z)

def shaMaj (x y z : ℕ) : ℕ := x &&& y ^^^ (x &&& z) ^^^ (y &&& z)

/-- The SHA-256 round constants (fractional cube roots of the first 64
primes). -/
def shaK : List ℕ :=
  [1116352408, 1899447441, 3049323471, 3921009573, 961987163, 1508970993,
   2453635748, 2870763221, 3624381080, 310598401, 607225278, 1426881987,
   1925078388, 2162078206, 2614888103, 3248222580, 3835390401, 4022224774,
   264347078, 604807628, 770255983, 1249150122, 1555081692, 1996064986,
   2554220882, 2821834349, 2952996808, 3210313671, 3336571891, 3584528711,
   113926993, 338241895, 666307205, 773529912, 1294757372, 1396182291,
   1695183700, 1986661051, 2177026350, 2456956037, 2730485921, 2820302411,
   3259730800, 3345764771, 3516065817, 3600352804, 4094571909, 275423344,
   430227734, 506948616, 659060556, 883997877, 958139571, 1322822218,
   1537002063, 1747873779, 1955562222, 2024104815, 2227730452, 2361852424,
   2428436474, 2756734187, 3204031479, 3329325298]

/-- The SHA-256 working state: eight 32-bit words. -/
structure Hash8 where
  a : ℕ
  b : ℕ
  c : ℕ
  d : ℕ
  e : ℕ
  f : ℕ
  g : ℕ
  h : ℕ
deriving DecidableEq

/-- The SHA-256 initial state (fractional square roots of the first 8
primes). -/
def shaH0 : Hash8 :=
  ⟨1779033703, 3144134277, 1013904242, 2773480762,
   1359893119, 2600822924, 528734635, 1541459225⟩

/-- One SHA-256 round: fold the state with one `(Kᵢ, Wᵢ)` pair. -/
def shaRound (st : Hash8) (kw : ℕ × ℕ) : Hash8 :=
  let t1 := m32 (st.h + bsig1 st.e + shaCh st.e st.f st.g + kw.1 + kw.2)
  let t2 := m32 (bsig0 st.a + shaMaj st.a st.b st.c)
  ⟨m32 (t1 + t2), st.a, st.b, st.c, m32 (st.d + t1), st.e, st.f, st.g⟩

/-- Extend the 16 message words of a block to the 64-entry schedule. -/
def shaSchedule (ws : List ℕ) : List ℕ :=
  (List.range 48).foldl
    (fun acc i =>
      acc ++ [m32 (ssig1 (acc.getD (i + 14) 0) + acc.getD (i + 9) 0 +
                   ssig0 (acc.getD (i + 1) 0) + acc.getD i 0)])
    ws

/-- Pointwise 32-bit addition of two states. -/
def shaAdd (x y : Hash8) : Hash8 :=
  ⟨m32 (x.a + y.a), m32 (x.b + y.b), m32 (x.c + y.c), m32 (x.d + y.d),
   m32 (x.e + y.e), m32 (x.f + y.f), m32 (x.g + y.g), m32 (x.h + y.h)⟩

/-- Big-endian packing of a 64-byte block into 16 words. -/
def shaWords : List ℕ → List ℕ
  | b0 :: b1 :: b2 :: b3 :: rest =>
      (b0 * 2 ^ 24 + b1 * 2 ^ 16 + b2 * 2 ^ 8 + b3) :: shaWords rest
  | _ => []

/-- Compress one 64-byte block into the running state. -/
def shaBlock (st : Hash8) (block : List ℕ) : Hash8 :=
  let ws := shaSchedule (shaWords block)
  shaAdd st ((shaK.zip ws).foldl shaRound st)

/-- Split a list into 64-byte blocks; the fuel (one unit per block, bounded
by the length) keeps the recursion structural. -/
def shaChunksAux : ℕ → List ℕ → List (List ℕ)
  | 0, _ => []
  | _, [] => []
  | fuel + 1, x :: xs => (x :: xs).take 64 :: shaChunksAux fuel ((x :: xs).drop 64)

/-- Split the padded message into 64-byte blocks. -/
def shaChunks (l : List ℕ) : List (List ℕ) := shaChunksAux (l.length + 1) l

/-- SHA-256 padding: `0x80`, zeros, and the 64-bit big-endian bit length. -/
def shaPad (msg : List ℕ) : List ℕ :=
  let bitLen := 8 * msg.length
  let zeros := (64 - (msg.length + 9) % 64) % 64
  msg ++ [0x80] ++ List.replicate zeros 0 ++
    (List.range 8).map (fun i => bitLen / 2 ^ (8 * (7 - i)) % 2 ^ 8)

/-- The SHA-256 state after absorbing a byte message. -/
def shaDigestState (msg : List ℕ) : Hash8 :=
  (shaChunks (shaPad msg)).foldl shaBlock shaH0

/-- The lowercase hexadecimal digit characters, in order. -/
def hexDigits : List Char := "0123456789abcdef".data

/-- The lowercase hex digit for a nibble. -/
def hexDigit (n : ℕ) : Char := hexDigits.getD n 'f'

/-- A 32-bit word as 8 lowercase hex characters. -/
def hex8 (w : ℕ) : String :=
  String.mk ((List.range 8).map fun i => hexDigit (w / 16 ^ (7 - i) % 16))

/-- `digest('hex')`: the state rendered as 64 lowercase hex characters. -/
def hexOfState (st : Hash8) : String :=
  hex8 st.a ++ hex8 st.b ++ hex8 st.c ++ hex8 st.d ++
  hex8 st.e ++ hex8 st.f ++ hex8 st.g ++ hex8 st.h

/-- UTF-8 bytes of one character (node's `hash.update` encodes strings as
UTF-8). -/
def utf8Bytes (c : Char) : List ℕ :=
  let n := c.toNat
  if n < 0x80 then [n]
  else if n < 0x800 then [0xC0 + n / 64, 0x80 + n % 64]
  else if n < 0x10000 then [0xE0 + n / 4096, 0x80 + n / 64 % 64, 0x80 + n % 64]
  else [0xF0 + n / 262144, 0x80 + n / 4096 % 64, 0x80 + n / 64 % 64, 0x80 + n % 64]

/-- UTF-8 bytes of a string. -/
def strBytes (s : String) : List ℕ :=
  s.data.foldr (fun c acc => utf8Bytes c ++ acc) []

/-- `crypto.createHash('sha256').update(s).digest('hex')`. -/
def sha256Hex (s : String) : String := hexOfState (shaDigestState (strBytes s))

/-! Structural facts about the digest: it is always 64 lowercase hex
characters. -/

/-- A 64-character lowercase-hexadecimal string. -/
def IsHex64 (s : String) : Prop :=
  s.length = 64 ∧ ∀ c ∈ s.data, c ∈ hexDigits

theorem hexDigit_mem (n : ℕ) : hexDigit n ∈ hexDigits := by
  unfold hexDigit
  rcases Nat.lt_or_ge n hexDigits.length with h | h
  · exact List.getD_eq_getElem hexDigits 'f' h ▸ List.getElem_mem h
  · rw [List.getD_eq_default hexDigits 'f' h]
    decide

theorem hex8_length (w : ℕ) : (hex8 w).length = 8 := by
  simp [hex8, String.length]

theorem hex8_mem (w : ℕ) : ∀ c ∈ (hex8 w).data, c ∈ hexDigits := by
  intro c hc
  simp only [hex8, String.data] at hc
  obtain ⟨i, -, rfl⟩ := List.mem_map.mp hc
  exact hexDigit_mem _

theorem hexOfState_isHex64 (st : Hash8) : IsHex64 (hexOfState st) := by
  constructor
  · simp [hexOfState, String.length_append, hex8_length]
  · intro c hc
    simp only [hexOfState, String.data_append, List.mem_append] at hc
    rcases hc with ((((((hc | hc) | hc) | hc) | hc) | hc) | hc) | hc <;>
      exact hex8_mem _ _ hc

theorem sha256Hex_isHex64 (s : String) : IsHex64 (sha256Hex s) :=
  hexOfState_isHex64 _

theorem sha256Hex_length (s : String) : (sha256Hex s).length = 64 :=
  (sha256Hex_isHex64 s).1

theorem sha256Hex_ne_empty (s : String) : sha256Hex s ≠ "" := by
  intro h
  have := sha256Hex_length s
  rw [h] at this
  simp [String.length] at this

/-! ## JavaScript numbers reachable by the pepper accumulator

`create` computes `pepper *= ip.charCodeAt(i)` starting from `1`.  Every value
that arises is an IEEE-754 double holding a non-negative integer, or
`Infinity` after overflow, or `NaN` (`Infinity * 0`).  Multiplication is
exact until the product needs more than 53 significant bits, after which it
is rounded to nearest, ties to even — there is no modular wraparound. -/

inductive JsNum where
  | fin (n : ℕ)
  | inf
  | nan
deriving DecidableEq

/-- Bit length with explicit fuel (structurally recursive, so concrete
peppers evaluate inside the kernel).  The fuel covers every value the
accumulator can reach before the overflow check classifies it as
`Infinity`. -/
def bitsAux : ℕ → ℕ → ℕ
  | 0, _ => 0
  | fuel + 1, n => if n = 0 then 0 else bitsAux fuel (n / 2) + 1

/-- The number of binary digits of `n`. -/
def bitLen (n : ℕ) : ℕ := bitsAux 1200 n

/-- Round a non-negative integer to the nearest IEEE-754 double
(round-to-nearest, ties-to-even), as the integer it holds, or `Infinity` on
overflow. -/
def roundDouble (n : ℕ) : JsNum :=
  if n < 2 ^ 53 then .fin n
  else
    let bits := bitLen n
    let g := 2 ^ (bits - 53)
    let q := n / g
    let r := n % g
    let q2 :=
      if 2 * r < g then q
      else if g < 2 * r then q + 1
      else if q % 2 = 0 then q else q + 1
    if q2 * g < 2 ^ 1024 then .fin (q2 * g) else .inf

/-- One step `pepper *= c` of the source's pepper loop, in double
semantics. -/
def jsMulCode (p : JsNum) (c : ℕ) : JsNum :=
  match p with
  | .fin a => roundDouble (a * c)
  | .inf => if c = 0 then .nan else .inf
  | .nan => .nan

/-- `charCodeAt` over the whole string (BMP text: code units are code
points). -/
def charCodes (s : String) : List ℕ := s.data.map Char.toNat

/-- The pepper: `var pepper = 1; for(...) pepper *= ip.charCodeAt(i);`. -/
def pepperOf (ip : String) : JsNum := (charCodes ip).foldl jsMulCode (.fin 1)

theorem roundDouble_exact {n : ℕ} (h : n < 2 ^ 53) : roundDouble n = .fin n := by
  unfold roundDouble
  rw [if_pos h]

theorem foldl_jsMulCode_exact : ∀ (cs : List ℕ) (a : ℕ),
    (∀ k, k ≤ cs.length → a * (cs.take k).prod < 2 ^ 53) →
    cs.foldl jsMulCode (.fin a) = .fin (a * cs.prod)
  | [], a, _ => by simp
  | c :: cs, a, h => by
    have h1 : a * c < 2 ^ 53 := by
      have := h 1 (by simp)
      simpa using this
    have h2 : ∀ k, k ≤ cs.length → a * c * (cs.take k).prod < 2 ^ 53 := by
      intro k hk
      have := h (k + 1) (by simpa using Nat.succ_le_succ hk)
      simpa [List.take_succ_cons, mul_assoc] using this
    simp only [List.foldl_cons, jsMulCode, roundDouble_exact h1,
      foldl_jsMulCode_exact cs (a * c) h2, List.prod_cons]
    rw [mul_assoc]

/-- Below `2 ^ 53` the double product is the exact product of the character
codes. -/
theorem pepperOf_exact (ip : String)
    (h : ∀ k, k ≤ (charCodes ip).length → ((charCodes ip).take k).prod < 2 ^ 53) :
    pepperOf ip = .fin (charCodes ip).prod := by
  have := foldl_jsMulCode_exact (charCodes ip) 1 (by simpa using h)
  simpa [pepperOf] using this

/-- Nearest integer to `n / d`, ties to even (`d > 0`). -/
def roundDiv (n d : ℕ) : ℕ :=
  let q := n / d
  let r := n % d
  if 2 * r < d then q
  else if d < 2 * r then q + 1
  else if q % 2 = 0 then q else q + 1

/-- A decimal candidate `d * 10 ^ k` that parses back (by round-to-nearest)
to exactly the double `n`. -/
def rtCandidate (n k d : ℕ) : Option ℕ :=
  if roundDouble (d * 10 ^ k) = .fin n then some (d * 10 ^ k) else none

/-- Among the decimals with granularity `10 ^ k`, the round-tripping one
closest to `n` (ties on an even significand), when one exists: ECMAScript's
choice of the significand for a given digit count. -/
def shortestAt (n k : ℕ) : Option ℕ :=
  let d := roundDiv n (10 ^ k)
  match rtCandidate n k d with
  | some v => some v
  | none =>
      match (if d = 0 then none else rtCandidate n k (d - 1)), rtCandidate n k (d + 1) with
      | some v, none => some v
      | none, some v => some v
      | some v1, some v2 =>
          if n - (d - 1) * 10 ^ k < (d + 1) * 10 ^ k - n then some v1
          else if (d + 1) * 10 ^ k - n < n - (d - 1) * 10 ^ k then some v2
          else if (d - 1) % 2 = 0 then some v1 else some v2
      | none, none => none

/-- The value denoted by the *shortest* round-tripping decimal for the
double `n`: ECMAScript Number-to-String chooses the fewest significant
digits (at most 17) whose decimal parses back to the same double, e.g.
`String(2**64)` is `"18446744073709552000"`, not the exact
`…551616`.  Searched from one significant digit up; the full-digit decimal
(`k = 0`) always round-trips, so the search succeeds. -/
def shortRoundTrip (n : ℕ) : ℕ :=
  let e := (Nat.repr n).length - 1
  match (List.range 17).findSome? (fun i => shortestAt n (e - i)) with
  | some v => v
  | none => n

/-- ECMAScript string conversion of the numbers the pepper can reach: the
exact decimal digits below `2 ^ 53` (there the double denotes the integer
exactly, every other decimal parses to a different double, and so the exact
digits are already the shortest round trip); the shortest round-tripping
decimal at or above `2 ^ 53`, printed as a plain integer below `10 ^ 21`
and in exponential notation beyond; `"Infinity"` and `"NaN"` as text. -/
def jsNumToString : JsNum → String
  | .nan => "NaN"
  | .inf => "Infinity"
  | .fin n =>
      if n < 2 ^ 53 then Nat.repr n
      else
        let v := shortRoundTrip n
        if n < 10 ^ 21 then Nat.repr v
        else
          let digs := (Nat.repr v).data
          let sig := (digs.reverse.dropWhile (fun c => c = '0')).reverse
          (if sig.length = 1 then String.mk sig
           else String.mk (sig.take 1) ++ "." ++ String.mk (sig.drop 1)) ++
            "e+" ++ Nat.repr (digs.length - 1)

/-! ## Levenshtein distance

The `fast-levenshtein` collaborator computes the unit-cost edit distance.
`levRec` is the textbook recurrence (the claims' wording); `levDP` the
row-by-row dynamic program that evaluates quickly; they are proved equal. -/

/-- Unit-cost edit distance, as the textbook recurrence. -/
def levRec : List Char → List Char → ℕ
  | [], ys => ys.length
  | x :: xs, [] => (x :: xs).length
  | x :: xs, y :: ys =>
      if x = y then levRec xs ys
      else 1 + min (levRec xs ys) (min (levRec xs (y :: ys)) (levRec (x :: xs) ys))
termination_by xs ys => (xs.length, ys.length)

/-- The distances of `a` against every suffix of `b`, ending with
`levRec a []`. -/
def rowSpec (a : List Char) : List Char → List ℕ
  | [] => [levRec a []]
  | y :: ys => levRec a (y :: ys) :: rowSpec a ys

/-- The row for the empty first string: suffix lengths. -/
def initRow : List Char → List ℕ
  | [] => [0]
  | _ :: ys => (ys.length + 1) :: initRow ys

/-- One dynamic-programming step: from the row of `a` to the row of
`x :: a`. -/
def stepRow (x : Char) : List Char → List ℕ → List ℕ
  | [], prev => [prev.headD 0 + 1]
  | y :: ys, prev =>
      let tailNew := stepRow x ys prev.tail
      (if x = y then prev.tail.headD 0
       else 1 + min (prev.tail.headD 0) (min (prev.headD 0) (tailNew.headD 0))) ::
        tailNew

/-- Row-by-row Levenshtein distance. -/
def levDP (a b : List Char) : ℕ :=
  (a.foldr (fun x row => stepRow x b row) (initRow b)).headD 0

theorem levRec_nil_right (a : List Char) : levRec a [] = a.length := by
  cases a <;> simp [levRec]

theorem rowSpec_headD (a b : List Char) : (rowSpec a b).headD 0 = levRec a b := by
  cases b <;> rfl

theorem initRow_eq_rowSpec : ∀ b : List Char, initRow b = rowSpec [] b
  | [] => by simp [initRow, rowSpec, levRec]
  | y :: ys => by
      simp [initRow, rowSpec, levRec, initRow_eq_rowSpec ys]

theorem stepRow_rowSpec (x : Char) : ∀ (b a : List Char),
    stepRow x b (rowSpec a b) = rowSpec (x :: a) b
  | [], a => by
      simp [stepRow, rowSpec, levRec_nil_right]
  | y :: ys, a => by
      have ih := stepRow_rowSpec x ys a
      simp only [stepRow, rowSpec, List.tail_cons, List.headD_cons, ih, rowSpec_headD]
      by_cases hxy : x = y <;> simp [levRec, hxy]

/-- The dynamic program computes the textbook edit distance. -/
theorem levDP_eq_levRec (a b : List Char) : levDP a b = levRec a b := by
  have hrow : a.foldr (fun x row => stepRow x b row) (initRow b) = rowSpec a b := by
    induction a with
    | nil => simpa using initRow_eq_rowSpec b
    | cons x xs ih => simp [List.foldr_cons, ih, stepRow_rowSpec]
  rw [levDP, hrow, rowSpec_headD]

/-- Edit distance on strings, as the external collaborator computes it. -/
def levStr (s t : String) : ℕ := levDP s.data t.data

/-! ## Regular-expression matchers

The configured matchers are `RegExp` values in the source, used only through
`String.prototype.search(re) !== -1`, i.e. "matches somewhere".  They are
modelled as `String → Bool` predicates.  The default patterns are
alternations of literal words with the `i` flag (substring search on the
lowercased subject), and the default language pattern
`/[a-zA-Z]{2,4}\-?/` succeeds exactly when two consecutive ASCII letters
occur. -/

/-- Does `p` begin `s`? -/
def strStarts : List Char → List Char → Bool
  | [], _ => true
  | _ :: _, [] => false
  | a :: ps, b :: ss => a = b && strStarts ps ss

/-- Does `p` occur inside `s`? -/
def strHasSub (p : List Char) : List Char → Bool
  | [] => strStarts p []
  | b :: ss => strStarts p (b :: ss) || strHasSub p ss

/-- `s.search(/w1|w2|.../gi) !== -1`: some literal word occurs,
case-insensitively. -/
def reMatches (pats : List String) (s : String) : Bool :=
  pats.any fun p => strHasSub p.data (strToLower s).data

/-- `/bot|crawler|link|spider|spyder|phantom/gi`. -/
def defaultBotMatch : String → Bool :=
  reMatches ["bot", "crawler", "link", "spider", "spyder", "phantom"]

/-- `/chrome|msie|safari|mozilla|opera/gi`. -/
def defaultBrowserMatch : String → Bool :=
  reMatches ["chrome", "msie", "safari", "mozilla", "opera"]

/-- Two consecutive ASCII letters occur somewhere. -/
def hasTwoAlpha : List Char → Bool
  | a :: b :: rest => (a.isAlpha && b.isAlpha) || hasTwoAlpha (b :: rest)
  | _ => false

/-- `/[a-zA-Z]{2,4}\-?/`: `search` succeeds exactly when two consecutive
ASCII letters occur. -/
def defaultLanguageMatch (s : String) : Bool := hasTwoAlpha s.data

/-! ## The data model -/

/-- A value stored in the caller-supplied properties object: the claims only
need strings (`version`) and numbers (`integrity`). -/
inductive PropVal where
  | vstr (s : String)
  | vnum (q : ℚ)
deriving DecidableEq

/-- A JavaScript object in insertion order: assignment overwrites an existing
key in place or appends a new one. -/
abbrev Props := List (String × PropVal)

/-- `obj[k] = v`. -/
def setKey : Props → String → PropVal → Props
  | [], k, v => [(k, v)]
  | (k', v') :: rest, k, v =>
      if k' = k then (k, v) :: rest else (k', v') :: setKey rest k v

/-- `obj[k]`, or `none` when absent. -/
def getKey : Props → String → Option PropVal
  | [], _ => none
  | (k', v') :: rest, k => if k' = k then some v' else getKey rest k

theorem getKey_setKey_self (p : Props) (k : String) (v : PropVal) :
    getKey (setKey p k v) k = some v := by
  induction p with
  | nil => simp [setKey, getKey]
  | cons kv rest ih =>
      obtain ⟨k', v'⟩ := kv
      by_cases h : k' = k <;> simp [setKey, getKey, h, ih]

theorem getKey_setKey_ne (p : Props) (k k2 : String) (v : PropVal) (h : k ≠ k2) :
    getKey (setKey p k v) k2 = getKey p k2 := by
  induction p with
  | nil => simp [setKey, getKey, h]
  | cons kv rest ih =>
      obtain ⟨k', v'⟩ := kv
      by_cases h' : k' = k <;> simp [setKey, getKey, h', h, ih]

/-- The request-metadata shape `create`/`compare`/`calculate` consume
(`extractHeaders` produces it from an Express request).  Every field is
optional; a missing field is JavaScript `undefined`. -/
structure Request where
  httpVersion : Option String
  acceptEncoding : Option String
  contentType : Option String
  connection : Option String
  remoteFamily : Option String
  remotePort : Option String
  userAgent : Option String
  acceptLanguage : Option String
  referer : Option String
  remoteAddress : Option String
deriving DecidableEq

/-- What `url.parse` yields, restricted to the fields `evaluateReferer`
reads. -/
structure UrlParts where
  protocol : Option String
  slashes : Bool
  auth : Option String
  host : Option String
  port : Option String

/-- The generator's configuration, fixed at construction. -/
structure Config where
  secret : String
  algorithm : String
  issuer : Option String
  audience : Option String
  delimit : String
  botMatch : String → Bool
  browserMatch : String → Bool
  languageMatch : String → Bool
  idealRequestChain : String

def defaultDelimit : String := "✰"

def defaultIdealRequestChain : String :=
  "1.1✰gzip, deflate✰application/json✰keep-alive✰IPv4✰443✰"

/-- The claims map the codec signs and verification surfaces (codec-managed
fields such as `iat` are not modelled). -/
structure TokenClaims where
  identifier : Option String
  properties : Props
deriving DecidableEq

/-- The signed-envelope wire contract: a token carries its claims, bound to
the secret, issuer and audience it was signed with; verification recovers
the claims exactly when they match the verifier's configuration. -/
structure Token where
  payload : TokenClaims
  secret : String
  issuer : Option String
  audience : Option String
deriving DecidableEq

/-- The feature vector `calculate` builds. -/
structure Features where
  userAgent : ℚ
  language : ℚ
  referer : ℚ
  requestData : ℚ
deriving DecidableEq

/-- One training example: a feature-shaped input and the target
integrity. -/
structure TrainingExample where
  input : Features
  integrity : ℚ
deriving DecidableEq

/-- The external collaborators entering `calculate`: the asynchronous
`fast-levenshtein` distance (its callback may report an error), the trained
`brain` network's run function, and node's `url.parse`. -/
structure Collab where
  levA : String → String → Except String ℕ
  netRun : List TrainingExample → Features → ℚ
  urlParse : String → UrlParts

/-- The real distance collaborator: `fast-levenshtein` computes the
unit-cost edit distance and reports no error on string inputs. -/
def levOk : String → String → Except String ℕ := fun s t => .ok (levStr s t)

/-! ## The feature extractor (`userAgentTest`, `evaluateLanguage`,
`evaluateReferer` of the source) -/

/-- Percentage of structural checks passed by the user-agent string
(`userAgentTest`, src/index.js:22). -/
def userAgentTest (agent : Option String) (botMatch browserMatch : String → Bool) : ℚ :=
  match agent with
  | none => 0
  | some a =>
      if jsTrim a = "" then 0
      else
        (b2q (!botMatch a) + b2q (browserMatch a) + b2q (containsChar a '.') +
         b2q (containsChar a '(') + b2q (containsChar a ')') +
         b2q (containsChar a '/')) / 6

/-- `evaluateLanguage` (src/index.js:42). -/
def evaluateLanguage (language : Option String) (languageMatch : String → Bool) : ℚ :=
  match language with
  | none => 0
  | some l => if jsTrim l = "" then 0 else b2q (languageMatch l)

/-- `evaluateReferer` (src/index.js:55). -/
def evaluateReferer (urlParse : String → UrlParts) (referer : Option String) : ℚ :=
  match referer with
  | none => 0
  | some r =>
      if jsTrim r = "" then 0
      else
        let parts := urlParse r
        b2q (decide ((parts.protocol = some "http:" ∨ parts.protocol = some "https:") ∧
          parts.slashes = true ∧ parts.auth = none ∧ parts.host ≠ none ∧
          parts.port = none))

/-! ## The generator's operations

`TokenGenerator.prototype.*` of the source.  The namespace stands for the
generator instance: its configuration and its mutable `trainingData` store
are passed explicitly. -/

namespace Janus

/-- The chain contribution of a truncated header field:
`field ? field.substr(0, n) : blank` (an empty string is falsy, and its
truncation is itself, so both readings of the ternary coincide). -/
def chainField (o : Option String) (n : ℕ) : String :=
  match o with
  | none => blank
  | some s => if s = "" then blank else strTake s n

/-- The request chain of `calculate` (src/index.js:230-235).  The first four
fields fall back to `blank`; `remoteFamily` and `remotePort` are concatenated
directly, so a missing one contributes the text `"undefined"`. -/
def buildChain (cfg : Config) (r : Request) : String :=
  chainField r.httpVersion 5 ++ cfg.delimit ++
  chainField r.acceptEncoding 32 ++ cfg.delimit ++
  chainField r.contentType 32 ++ cfg.delimit ++
  chainField r.connection 16 ++ cfg.delimit ++
  jsCoerceStr r.remoteFamily ++ cfg.delimit ++
  jsCoerceStr r.remotePort ++ cfg.delimit

/-- The matcher in force inside `calculate`'s distance callback.  The reads
`this.botMatch`, `this.browserMatch`, `this.languageMatch`
(src/index.js:243-244) happen inside the plain function handed to
`levenshtein.getAsync`; there `this` is not the generator but the global
object (the module is non-strict), so all three are `undefined`, and
`String.prototype.search(undefined)` coerces `undefined` to the empty
regular expression, which matches at index 0 of every string — `search`
never returns `-1`.  The configured matchers are therefore ignored during
scoring. -/
def undefinedMatch : String → Bool := fun _ => true

/-- `TokenGenerator.prototype.calculate` (src/index.js:225-251): retrain the
scorer on the current store, build the chain (with `this` still bound to the
generator), ask the distance collaborator, and run the scorer on the four
features — computed inside the callback, where the `this.*` matchers have
degenerated to `undefinedMatch`.  A distance error goes to the failure
continuation. -/
def calculate (ext : Collab) (cfg : Config) (trainingData : List TrainingExample)
    (r : Request) : Except String ℚ :=
  let chain := buildChain cfg r
  match ext.levA cfg.idealRequestChain chain with
  | .error e => .error e
  | .ok distance =>
      .ok (ext.netRun trainingData
        { userAgent := userAgentTest r.userAgent undefinedMatch undefinedMatch
          language := evaluateLanguage r.acceptLanguage undefinedMatch
          referer := evaluateReferer ext.urlParse r.referer
          requestData := (distance : ℚ) / ((buildChain cfg r).length : ℚ) })

/-- The fourth feature in isolation: the real edit distance between the ideal
chain and the built chain, normalised by the built chain's length. -/
def shapeScore (cfg : Config) (r : Request) : ℚ :=
  (levStr cfg.idealRequestChain (buildChain cfg r) : ℚ) / ((buildChain cfg r).length : ℚ)

/-- `createToken` (src/index.js:74-79): sign `{identifier, properties}` with
the configuration. -/
def createToken (identifier : String) (properties : Option Props) (cfg : Config) : Token :=
  { payload := { identifier := some identifier, properties := properties.getD [] }
    secret := cfg.secret
    issuer := cfg.issuer
    audience := cfg.audience }

/-- `TokenGenerator.prototype.create` (src/index.js:131-156): score the
request, derive the peppered identifier, mutate the caller's properties
object with `version` and `integrity`, and sign.  `rng` is the fresh
`uuid.v4` value.  A missing remote address makes `ip.length` throw. -/
def create (ext : Collab) (rng : String) (cfg : Config)
    (trainingData : List TrainingExample) (request : Request) (resourceId : String)
    (properties : Option Props) (version : String) : Except String (Token × String) :=
  let props := match properties with | none => [] | some p => p
  match calculate ext cfg trainingData request with
  | .error e => .error e
  | .ok result =>
      match request.remoteAddress with
      | none => .error "TypeError: ip is undefined"
      | some ip =>
          let newId := sha256Hex (resourceId ++ jsNumToString (pepperOf ip) ++ ip ++ rng)
          let props2 := setKey (setKey props "version" (.vstr version)) "integrity" (.vnum result)
          .ok (createToken newId (some props2) cfg, newId)

/-- `jwt.verify` at the wire contract: the claims come back exactly when
secret, issuer and audience match the verifying configuration. -/
def jwtVerify (t : Token) (cfg : Config) : Except String TokenClaims :=
  if t.secret = cfg.secret ∧ t.issuer = cfg.issuer ∧ t.audience = cfg.audience
  then .ok t.payload
  else .error "JsonWebTokenError: invalid signature"

/-- `TokenGenerator.prototype.decode` (src/index.js:173-180):
`if (err || !decoded.identifier) return error(...)` — a missing or falsy
(empty) identifier is rejected like a verification error. -/
def decode (cfg : Config) (t : Token) : Except String TokenClaims :=
  match jwtVerify t cfg with
  | .error e => .error e
  | .ok decoded =>
      if jsFalsyStr decoded.identifier then .error "MalformedTokenError: missing identifier"
      else .ok decoded

/-- `TokenGenerator.prototype.compare` (src/index.js:201-205):
`done(Math.abs(integrity - result) < 0.05)`. -/
def compare (ext : Collab) (cfg : Config) (trainingData : List TrainingExample)
    (integrity : ℚ) (request : Request) : Except String Bool :=
  match calculate ext cfg trainingData request with
  | .error e => .error e
  | .ok result => .ok (decide (|integrity - result| < 1 / 20))

/-- `TokenGenerator.prototype.train` (src/index.js:293-303):
`this.trainingData.push({input: {...}, output: {integrity}})`. -/
def train (trainingData : List TrainingExample)
    (userAgent language referer requestData integrity : ℚ) : List TrainingExample :=
  trainingData ++
    [{ input := { userAgent := userAgent, language := language,
                  referer := referer, requestData := requestData }
       integrity := integrity }]

/-- One public operation of a generator instance, with its arguments. -/
inductive GenOp where
  | opTrain (userAgent language referer requestData integrity : ℚ)
  | opCreate (rng : String) (request : Request) (resourceId : String)
      (properties : Option Props) (version : String)
  | opDecode (t : Token)
  | opCompare (integrity : ℚ) (request : Request)
  | opCalculate (request : Request)

/-- The effect of one operation on the `trainingData` store: `train` pushes
one example; `create`, `decode`, `compare` and `calculate` only read the
store (no other assignment to `this.trainingData` occurs in the source). -/
def stepOp (_ext : Collab) (_cfg : Config) (trainingData : List TrainingExample) :
    GenOp → List TrainingExample
  | .opTrain ua lang ref rd i => train trainingData ua lang ref rd i
  | .opCreate _ _ _ _ _ => trainingData
  | .opDecode _ => trainingData
  | .opCompare _ _ => trainingData
  | .opCalculate _ => trainingData

/-- The examples a sequence of operations submits through `train`, in call
order. -/
def trainedOf : List GenOp → List TrainingExample
  | [] => []
  | .opTrain ua lang ref rd i :: ops =>
      { input := { userAgent := ua, language := lang, referer := ref, requestData := rd }
        integrity := i } :: trainedOf ops
  | .opCreate _ _ _ _ _ :: ops => trainedOf ops
  | .opDecode _ :: ops => trainedOf ops
  | .opCompare _ _ :: ops => trainedOf ops
  | .opCalculate _ :: ops => trainedOf ops

end Janus

namespace Janus

/-- Equality of `Except` results is decidable when both components' is, so
concrete runs of the operations can be checked by evaluation. -/
instance {ε α : Type _} [DecidableEq ε] [DecidableEq α] : DecidableEq (Except ε α) :=
  fun x y =>
    match x, y with
    | .ok a, .ok b =>
        if h : a = b then isTrue (by rw [h]) else isFalse (by simp [h])
    | .error a, .error b =>
        if h : a = b then isTrue (by rw [h]) else isFalse (by simp [h])
    | .ok _, .error _ => isFalse (by simp)
    | .error _, .ok _ => isFalse (by simp)

/-! ## Concrete fixtures

A generator configured as in the package's own test (`src/test.js`), with
concrete collaborator instances, used by the witnesses and counterexamples
below. -/

/-- A `url.parse` collaborator as node parses `http://localhost`. -/
def urlParseLocalhost : String → UrlParts := fun _ =>
  { protocol := some "http:", slashes := true, auth := none,
    host := some "localhost", port := none }

/-- A trained-network collaborator that always scores `1` (a perfectly
trusted shape). -/
def netRunConst : List TrainingExample → Features → ℚ := fun _ _ => 1

/-- Well-behaved collaborators: real distance, constant scorer. -/
def collabW : Collab :=
  { levA := levOk, netRun := netRunConst, urlParse := urlParseLocalhost }

/-- Collaborators whose distance computation fails. -/
def collabErr : Collab :=
  { levA := fun _ _ => .error "distance failure", netRun := netRunConst,
    urlParse := urlParseLocalhost }

/-- Collaborators whose scorer projects the fourth feature, exposing the
request-shape score that `calculate` builds. -/
def collabShape : Collab :=
  { levA := levOk, netRun := fun _ f => f.requestData, urlParse := urlParseLocalhost }

/-- The configuration `new TokenGenerator(trainingData, 'test', 'localhost',
'localhost')` builds: default delimiter, matchers and ideal chain. -/
def cfgW : Config where
  secret := "test"
  algorithm := "HS256"
  issuer := some "localhost"
  audience := some "localhost"
  delimit := defaultDelimit
  botMatch := defaultBotMatch
  browserMatch := defaultBrowserMatch
  languageMatch := defaultLanguageMatch
  idealRequestChain := defaultIdealRequestChain

/-- The user-agent of `src/test.js`. -/
def uaW : String := "Mozilla/5.0 (Windows NT 6.1) Gecko/20100101 Firefox/43.0"

/-- The request of `src/test.js`. -/
def reqW : Request where
  httpVersion := some "1.1"
  acceptEncoding := some "gzip, deflate"
  contentType := some "application/json"
  connection := some "keep-alive"
  remoteFamily := some "IPv4"
  remotePort := some "443"
  userAgent := some uaW
  acceptLanguage := some "en-US"
  referer := some "http://localhost"
  remoteAddress := some "127.0.0.1"

end Janus

namespace Janus

/-- C2.  `compare` recomputes the integrity score from the request exactly as
`create` does (both delegate to `calculate`) and reports whether it lies
within the fixed tolerance `0.05` of the recorded score; it reports `true`
if and only if `|s - calculate(r)| < 0.05`. -/
theorem c2_compare_tolerance (ext : Collab) (cfg : Config)
    (td : List TrainingExample) (s : ℚ) (r : Request) (q : ℚ)
    (hcalc : calculate ext cfg td r = .ok q) :
    compare ext cfg td s r = .ok (decide (|s - q| < 1 / 20)) ∧
      (compare ext cfg td s r = .ok true ↔ |s - q| < 1 / 20) := by
  have hc : compare ext cfg td s r = .ok (decide (|s - q| < 1 / 20)) := by
    unfold compare
    rw [hcalc]
  refine ⟨hc, ?_⟩
  rw [hc]
  simp

/-- Witness for C2 at the test fixture: the constant scorer yields `1`, and
a recorded score of `1` is within tolerance while `2` is not. -/
theorem c2_compare_tolerance_witness :
    (compare collabW cfgW [] 1 reqW = .ok true ↔ |(1 : ℚ) - 1| < 1 / 20) ∧
    (compare collabW cfgW [] 2 reqW = .ok true ↔ |(2 : ℚ) - 1| < 1 / 20) :=
  ⟨(c2_compare_tolerance collabW cfgW [] 1 reqW 1 (by decide)).2,
   (c2_compare_tolerance collabW cfgW [] 2 reqW 1 (by decide)).2⟩

/-- C7.  The training store is append-only: across any sequence of generator
operations it ends as the initial store followed by exactly the examples the
`train` calls submitted, in call order; in particular its length grows by
the number of `train` calls and the initial examples are untouched. -/
theorem c7_train_append_only (ext : Collab) (cfg : Config)
    (td : List TrainingExample) (ops : List GenOp) :
    ops.foldl (stepOp ext cfg) td = td ++ trainedOf ops ∧
      (ops.foldl (stepOp ext cfg) td).length = td.length + (trainedOf ops).length ∧
      (ops.foldl (stepOp ext cfg) td).take td.length = td := by
  have main : ∀ (l : List GenOp) (st : List TrainingExample),
      l.foldl (stepOp ext cfg) st = st ++ trainedOf l := by
    intro l
    induction l with
    | nil => intro st; simp [trainedOf]
    | cons op rest ih =>
        intro st
        cases op with
        | opTrain ua lang ref rd i =>
            simp [List.foldl_cons, stepOp, train, trainedOf, ih]
        | opCreate rng r id p v => simp [List.foldl_cons, stepOp, trainedOf, ih]
        | opDecode t => simp [List.foldl_cons, stepOp, trainedOf, ih]
        | opCompare i r => simp [List.foldl_cons, stepOp, trainedOf, ih]
        | opCalculate r => simp [List.foldl_cons, stepOp, trainedOf, ih]
  refine ⟨main ops td, ?_, ?_⟩
  · rw [main ops td]; simp
  · rw [main ops td]; exact List.take_left td (trainedOf ops)

/-- C8.  When the distance collaborator reports an error, `calculate` fails
with exactly that error, the scorer's run function is never consulted (the
outcome is the same for every scorer), and `create` and `compare` fail with
the same error producing no token, identifier or comparison. -/
theorem c8_distance_error_propagation (ext : Collab) (cfg : Config)
    (td : List TrainingExample) (r : Request) (e : String)
    (herr : ext.levA cfg.idealRequestChain (buildChain cfg r) = .error e) :
    calculate ext cfg td r = .error e ∧
      (∀ netRun2 : List TrainingExample → Features → ℚ,
        calculate { ext with netRun := netRun2 } cfg td r = .error e) ∧
      (∀ (rng resourceId version : String) (properties : Option Props),
        create ext rng cfg td r resourceId properties version = .error e) ∧
      (∀ s : ℚ, compare ext cfg td s r = .error e) := by
  have hcalc : ∀ nr : List TrainingExample → Features → ℚ,
      calculate { ext with netRun := nr } cfg td r = .error e := by
    intro nr
    simp only [calculate]
    rw [herr]
  have hcalc0 : calculate ext cfg td r = .error e := hcalc ext.netRun
  refine ⟨hcalc0, hcalc, ?_, ?_⟩
  · intro rng resourceId version properties
    simp only [create]
    rw [hcalc0]
  · intro s
    simp only [compare]
    rw [hcalc0]

/-- Witness for C8: a failing distance collaborator at the test fixture. -/
theorem c8_distance_error_propagation_witness :
    calculate collabErr cfgW [] reqW = .error "distance failure" ∧
      (∀ netRun2 : List TrainingExample → Features → ℚ,
        calculate { collabErr with netRun := netRun2 } cfgW [] reqW =
          .error "distance failure") ∧
      (∀ (rng resourceId version : String) (properties : Option Props),
        create collabErr rng cfgW [] reqW resourceId properties version =
          .error "distance failure") ∧
      (∀ s : ℚ, compare collabErr cfgW [] s reqW = .error "distance failure") :=
  c8_distance_error_propagation collabErr cfgW [] reqW "distance failure" rfl

end Janus

namespace Janus

/-- Anatomy of a successful `create`: the score came from `calculate`, the
remote address was present, the identifier is the hex digest of
`resourceId + pepper + ip + uuid`, and the token signs the caller's
properties updated in place with `version` and `integrity`. -/
theorem create_ok_charact (ext : Collab) (rng : String) (cfg : Config)
    (td : List TrainingExample) (r : Request) (resourceId : String)
    (properties : Option Props) (version : String) (tok : Token) (newId : String)
    (hcr : create ext rng cfg td r resourceId properties version = .ok (tok, newId)) :
    ∃ (q : ℚ) (ip : String),
      calculate ext cfg td r = .ok q ∧
      r.remoteAddress = some ip ∧
      newId = sha256Hex (resourceId ++ jsNumToString (pepperOf ip) ++ ip ++ rng) ∧
      tok = createToken newId
        (some (setKey (setKey (properties.getD []) "version" (.vstr version))
          "integrity" (.vnum q))) cfg := by
  revert hcr
  simp only [create]
  cases hq : calculate ext cfg td r with
  | error e => intro h; exact absurd h (by simp)
  | ok q =>
      cases hip : r.remoteAddress with
      | none => intro h; exact absurd h (by simp)
      | some ip =>
          intro h
          simp only [Except.ok.injEq, Prod.mk.injEq] at h
          obtain ⟨htok, hid⟩ := h
          refine ⟨q, ip, rfl, rfl, hid.symm, ?_⟩
          rw [← htok, ← hid]
          cases properties <;> rfl

/-- Decoding a token the same configuration signed succeeds whenever the
identifier is truthy. -/
theorem decode_createToken (cfg : Config) (identifier : String)
    (props : Option Props) (hne : identifier ≠ "") :
    decode cfg (createToken identifier props cfg) =
      .ok { identifier := some identifier, properties := props.getD [] } := by
  have h1 : jwtVerify (createToken identifier props cfg) cfg =
      .ok { identifier := some identifier, properties := props.getD [] } := by
    simp [jwtVerify, createToken]
  simp [decode, h1, jsFalsyStr, hne]

/-- C10.  A successful `create` with a supplied properties object signs that
very object updated in place: its `version` and `integrity` keys now hold
the given version and the computed score (overwriting any previous values),
every other key is untouched, and an absent properties argument is replaced
by a fresh empty object receiving the same two keys. -/
theorem c10_properties_mutation (ext : Collab) (rng : String) (cfg : Config)
    (td : List TrainingExample) (r : Request) (resourceId : String)
    (properties : Option Props) (version : String) (tok : Token) (newId : String)
    (hcr : create ext rng cfg td r resourceId properties version = .ok (tok, newId)) :
    ∃ q, calculate ext cfg td r = .ok q ∧
      tok.payload.properties =
        setKey (setKey (properties.getD []) "version" (.vstr version))
          "integrity" (.vnum q) ∧
      getKey tok.payload.properties "version" = some (.vstr version) ∧
      getKey tok.payload.properties "integrity" = some (.vnum q) ∧
      (∀ k v, k ≠ "version" → k ≠ "integrity" →
        getKey (properties.getD []) k = some v →
        getKey tok.payload.properties k = some v) := by
  obtain ⟨q, ip, hq, hip, hid, htok⟩ :=
    create_ok_charact ext rng cfg td r resourceId properties version tok newId hcr
  have hprops : tok.payload.properties =
      setKey (setKey (properties.getD []) "version" (.vstr version))
        "integrity" (.vnum q) := by
    rw [htok]; rfl
  refine ⟨q, hq, hprops, ?_, ?_, ?_⟩
  · rw [hprops, getKey_setKey_ne _ _ _ _ (by decide), getKey_setKey_self]
  · rw [hprops, getKey_setKey_self]
  · intro k v hkv hki hP
    rw [hprops, getKey_setKey_ne _ _ _ _ (Ne.symm hki),
      getKey_setKey_ne _ _ _ _ (Ne.symm hkv)]
    exact hP

/-- C3 (amended).  `decode` fails exactly when the codec reports a
verification error or the decoded claims' identifier is missing or falsy
(in particular the empty string); otherwise it surfaces the full claims. -/
theorem c3_decode_amended (cfg : Config) (t : Token) :
    (∀ e, jwtVerify t cfg = .error e → decode cfg t = .error e) ∧
    (∀ c, jwtVerify t cfg = .ok c → jsFalsyStr c.identifier = true →
      decode cfg t = .error "MalformedTokenError: missing identifier") ∧
    (∀ c, jwtVerify t cfg = .ok c → jsFalsyStr c.identifier = false →
      decode cfg t = .ok c) ∧
    (∀ c, decode cfg t = .ok c →
      jwtVerify t cfg = .ok c ∧ jsFalsyStr c.identifier = false) := by
  refine ⟨?_, ?_, ?_, ?_⟩
  · intro e h
    simp [decode, h]
  · intro c h hf
    simp [decode, h, hf]
  · intro c h hf
    simp [decode, h, hf]
  · intro c h
    cases hv : jwtVerify t cfg with
    | error e => simp [decode, hv] at h
    | ok c2 =>
        cases hf : jsFalsyStr c2.identifier with
        | true => simp [decode, hv, hf] at h
        | false =>
            have h2 := h
            simp [decode, hv, hf] at h2
            subst h2
            exact ⟨rfl, hf⟩

/-- A cryptographically well-formed token whose claims carry an *empty*
identifier: present, yet falsy. -/
def tokenNoId : Token :=
  { payload := { identifier := some "", properties := [] }, secret := "test",
    issuer := some "localhost", audience := some "localhost" }

/-- C3 (counterexample).  The codec verifies `tokenNoId` and its claims do
not lack the identifier field, yet `decode` invokes the failure
continuation: the claim's "exactly when" is violated by a present-but-empty
identifier. -/
theorem c3_counterexample :
    decode cfgW tokenNoId = .error "MalformedTokenError: missing identifier" ∧
    jwtVerify tokenNoId cfgW = .ok { identifier := some "", properties := [] } ∧
    ({ identifier := some "", properties := [] } : TokenClaims).identifier ≠ none := by
  exact ⟨by decide, by decide, by decide⟩

end Janus

namespace Janus

/-- The six binary sub-tests of the user-agent score, in the order the
source sums them: not-a-bot, is-a-browser, and the four shape
characters. -/
def uaSubTests (botMatch browserMatch : String → Bool) (a : String) : List Bool :=
  [!botMatch a, browserMatch a, containsChar a '.', containsChar a '(',
   containsChar a ')', containsChar a '/']

/-- The score the claim describes: the count of passing sub-tests over
six. -/
def uaFormula (botMatch browserMatch : String → Bool) (a : String) : ℚ :=
  ((uaSubTests botMatch browserMatch a).count true : ℚ) / 6

/-- The standalone helper honours whatever matchers it is handed: for an
agent non-empty after trimming, its sum of `(test & 1)` terms over six is
the count of passing sub-tests over six. -/
theorem userAgentTest_formula (botMatch browserMatch : String → Bool) (a : String)
    (hne : jsTrim a ≠ "") :
    userAgentTest (some a) botMatch browserMatch = uaFormula botMatch browserMatch a := by
  simp only [userAgentTest, if_neg hne, uaFormula, uaSubTests]
  cases h1 : botMatch a <;> cases h2 : browserMatch a <;>
    cases h3 : containsChar a '.' <;> cases h4 : containsChar a '(' <;>
    cases h5 : containsChar a ')' <;> cases h6 : containsChar a '/' <;>
    norm_num [b2q]

/-- A probe collaborator whose scorer projects the first feature, exposing
the user-agent score `calculate` actually computes. -/
def uaProbe (urlP : String → UrlParts) : Collab :=
  { levA := levOk, netRun := fun _ f => f.userAgent, urlParse := urlP }

/-- The user-agent feature `calculate` hands the scorer is `userAgentTest`
under the degenerate `undefinedMatch` patterns, whatever the configuration
holds. -/
theorem calculate_userAgent (urlP : String → UrlParts) (cfg : Config)
    (td : List TrainingExample) (r : Request) :
    calculate (uaProbe urlP) cfg td r =
      .ok (userAgentTest r.userAgent undefinedMatch undefinedMatch) := by
  simp [calculate, uaProbe, levOk]

set_option maxRecDepth 8000 in
/-- C4 (counterexample).  Two failures at concrete inputs.  During scoring
the configured matchers are ignored: at the test fixture's Mozilla agent the
configured-matcher formula gives `6/6 = 1` (no bot word, a browser word,
all four shape characters), but `calculate` computes `5/6`, because the
`this`-less callback evaluates the bot test against `undefined` — the empty
pattern matches, so sub-test (a) is lost.  And the whitespace-only agent
`" "` is a non-empty string whose claimed formula gives `1/6`, yet
`userAgentTest` returns `0` because the source tests
`agent.trim() === ''`. -/
theorem c4_counterexample :
    reqW.userAgent = some uaW ∧
    calculate (uaProbe urlParseLocalhost) cfgW [] reqW =
      .ok (uaFormula undefinedMatch undefinedMatch uaW) ∧
    uaFormula undefinedMatch undefinedMatch uaW = 5 / 6 ∧
    uaFormula defaultBotMatch defaultBrowserMatch uaW = 1 ∧
    (5 : ℚ) / 6 ≠ 1 ∧
    userAgentTest (some " ") defaultBotMatch defaultBrowserMatch = 0 ∧
    uaFormula defaultBotMatch defaultBrowserMatch " " = 1 / 6 ∧
    " " ≠ "" := by
  have hu : (uaSubTests undefinedMatch undefinedMatch uaW).count true = 5 := by decide
  have hc : (uaSubTests defaultBotMatch defaultBrowserMatch uaW).count true = 6 := by decide
  have hw : (uaSubTests defaultBotMatch defaultBrowserMatch " ").count true = 1 := by decide
  refine ⟨rfl, ?_, ?_, ?_, by norm_num, by decide, ?_, by decide⟩
  · rw [calculate_userAgent]
    have hua : reqW.userAgent = some uaW := rfl
    rw [hua, userAgentTest_formula undefinedMatch undefinedMatch uaW (by decide)]
  · rw [uaFormula, hu]
    norm_num
  · rw [uaFormula, hc]
    norm_num
  · rw [uaFormula, hw]
    norm_num

/-- C4 (amended).  The user-agent score computed during scoring does not use
the configured matchers: inside the distance callback `this` is not the
generator, so both patterns are `undefined` and sub-test (a) always fails
while (b) always passes.  For an agent non-empty after trimming whitespace,
the score during scoring is the count of passing sub-tests over six under
those degenerate patterns — unchanged under any reconfiguration of the
matchers — and a missing, empty or whitespace-only agent scores exactly
`0`.  The standalone `userAgentTest` helper, handed matchers explicitly,
does score `k/6` over the six sub-tests as the claim describes. -/
theorem c4_userAgentScore_amended (cfg : Config) (td : List TrainingExample)
    (urlP : String → UrlParts) (r : Request) :
    (∀ a, r.userAgent = some a → jsTrim a ≠ "" →
      calculate (uaProbe urlP) cfg td r =
        .ok (uaFormula undefinedMatch undefinedMatch a)) ∧
    (∀ a, r.userAgent = some a → jsTrim a = "" →
      calculate (uaProbe urlP) cfg td r = .ok 0) ∧
    (r.userAgent = none → calculate (uaProbe urlP) cfg td r = .ok 0) ∧
    (∀ bot2 brow2 lang2,
      calculate (uaProbe urlP)
        { cfg with botMatch := bot2, browserMatch := brow2, languageMatch := lang2 }
        td r = calculate (uaProbe urlP) cfg td r) ∧
    (∀ (botMatch browserMatch : String → Bool) a, jsTrim a ≠ "" →
      userAgentTest (some a) botMatch browserMatch = uaFormula botMatch browserMatch a) ∧
    (∀ (botMatch browserMatch : String → Bool) a, jsTrim a = "" →
      userAgentTest (some a) botMatch browserMatch = 0) ∧
    (∀ botMatch browserMatch : String → Bool,
      userAgentTest none botMatch browserMatch = 0) := by
  refine ⟨?_, ?_, ?_, ?_, ?_, ?_, ?_⟩
  · intro a ha hne
    rw [calculate_userAgent, ha, userAgentTest_formula undefinedMatch undefinedMatch a hne]
  · intro a ha he
    rw [calculate_userAgent, ha]
    simp [userAgentTest, he]
  · intro ha
    rw [calculate_userAgent, ha]
    simp [userAgentTest]
  · intro bot2 brow2 lang2
    rfl
  · exact fun bot brow a hne => userAgentTest_formula bot brow a hne
  · intro bot brow a he
    simp [userAgentTest, he]
  · intro bot brow
    simp [userAgentTest]

/-- The chain of the claim C5's wording: every missing field contributes the
empty string, the first four truncated, family and port untruncated. -/
def specChainC5 (cfg : Config) (r : Request) : String :=
  strTake (r.httpVersion.getD "") 5 ++ cfg.delimit ++
  strTake (r.acceptEncoding.getD "") 32 ++ cfg.delimit ++
  strTake (r.contentType.getD "") 32 ++ cfg.delimit ++
  strTake (r.connection.getD "") 16 ++ cfg.delimit ++
  r.remoteFamily.getD "" ++ cfg.delimit ++
  r.remotePort.getD "" ++ cfg.delimit

/-- The chain as the code actually builds it: the first four fields fall
back to the empty string, but a missing network family or port contributes
the text `"undefined"`. -/
def specChainAmended (cfg : Config) (r : Request) : String :=
  strTake (r.httpVersion.getD "") 5 ++ cfg.delimit ++
  strTake (r.acceptEncoding.getD "") 32 ++ cfg.delimit ++
  strTake (r.contentType.getD "") 32 ++ cfg.delimit ++
  strTake (r.connection.getD "") 16 ++ cfg.delimit ++
  jsCoerceStr r.remoteFamily ++ cfg.delimit ++
  jsCoerceStr r.remotePort ++ cfg.delimit

/-- The falsy-guarded truncation of the source coincides with plain
truncation of the defaulted field. -/
theorem chainField_eq (o : Option String) (n : ℕ) :
    chainField o n = strTake (o.getD "") n := by
  cases o with
  | none =>
      show blank = strTake "" n
      simp [blank, strTake]
  | some s =>
      by_cases h : s = ""
      · subst h
        show blank = strTake "" n
        simp [blank, strTake]
      · simp [chainField, h]

/-- An all-absent request: every header missing. -/
def reqU : Request where
  httpVersion := none
  acceptEncoding := none
  contentType := none
  connection := none
  remoteFamily := none
  remotePort := none
  userAgent := none
  acceptLanguage := none
  referer := none
  remoteAddress := none

set_option maxRecDepth 8000 in
/-- C5 (counterexample).  On a request with no network family and no port
the code's chain is `"✰✰✰✰undefined✰undefined✰"`, not the claimed
`"✰✰✰✰✰✰"`; the normalised distance the scorer receives is `44/24`, not the
claimed `49/6`. -/
theorem c5_counterexample :
    buildChain cfgW reqU ≠ specChainC5 cfgW reqU ∧
    shapeScore cfgW reqU ≠
      (levRec cfgW.idealRequestChain.data (specChainC5 cfgW reqU).data : ℚ) /
        ((specChainC5 cfgW reqU).length : ℚ) ∧
    calculate collabShape cfgW [] reqU = .ok (shapeScore cfgW reqU) := by
  have h1 : levStr cfgW.idealRequestChain (buildChain cfgW reqU) = 44 := by decide
  have h2 : (buildChain cfgW reqU).length = 24 := by decide
  have h3 : levRec cfgW.idealRequestChain.data (specChainC5 cfgW reqU).data = 49 := by
    rw [← levDP_eq_levRec]
    decide
  have h4 : (specChainC5 cfgW reqU).length = 6 := by decide
  refine ⟨by decide, ?_, ?_⟩
  · rw [shapeScore, h1, h2, h3, h4]
    norm_num
  · simp only [calculate, collabShape, levOk, shapeScore, levStr]

/-- C5 (amended).  The chain concatenates, in fixed order, the four
truncated fields (missing ones as the empty string) and then the network
family and port coerced to text — a missing family or port contributes the
string `"undefined"` — each followed by the delimiter; the request-shape
feature handed to the scorer is the unit-cost edit distance between the
ideal chain and this chain, divided by the chain's length. -/
theorem c5_requestShape_amended (cfg : Config) (r : Request) :
    buildChain cfg r = specChainAmended cfg r ∧
    shapeScore cfg r =
      (levRec cfg.idealRequestChain.data (buildChain cfg r).data : ℚ) /
        ((buildChain cfg r).length : ℚ) ∧
    (∀ (td : List TrainingExample) (urlP : String → UrlParts),
      calculate { levA := levOk, netRun := fun _ f => f.requestData, urlParse := urlP }
        cfg td r = .ok (shapeScore cfg r)) := by
  refine ⟨?_, ?_, ?_⟩
  · simp [buildChain, specChainAmended, chainField_eq]
  · rw [shapeScore, levStr, levDP_eq_levRec]
  · intro td urlP
    simp only [calculate, levOk, shapeScore, levStr]

end Janus

namespace Janus

/-- A collision of the hash: two distinct inputs with the same digest.
Collision resistance of a concrete hash is never provable (nor refutable in
practice), so identifier-distinctness facts surface any needed collision
explicitly. -/
def Collision (h : String → String) : Prop := ∃ a b : String, a ≠ b ∧ h a = h b

/-- Appending to a common front string is cancellative. -/
theorem string_append_cancel {s u v : String} (h : s ++ u = s ++ v) : u = v := by
  have hd : (s ++ u).data = (s ++ v).data := congrArg String.data h
  rw [String.data_append, String.data_append] at hd
  exact String.ext (List.append_cancel_left hd)

/-- C1 (amended).  A successful `create` followed by `decode` of the produced
token yields claims whose identifier is the returned one, whose
`properties.version` equals the requested version, whose properties agree
with the caller's map on every key other than `version` and `integrity`
(those two are overwritten), and whose identifier is a 64-character
lowercase-hexadecimal string — hence distinct from any resource id that is
not itself such a string. -/
theorem c1_roundtrip_amended (ext : Collab) (rng : String) (cfg : Config)
    (td : List TrainingExample) (r : Request) (resourceId : String) (P : Props)
    (version : String) (tok : Token) (newId : String)
    (hcr : create ext rng cfg td r resourceId (some P) version = .ok (tok, newId)) :
    ∃ claims, decode cfg tok = .ok claims ∧
      claims.identifier = some newId ∧
      getKey claims.properties "version" = some (.vstr version) ∧
      (∀ k v, k ≠ "version" → k ≠ "integrity" → getKey P k = some v →
        getKey claims.properties k = some v) ∧
      IsHex64 newId ∧
      (¬ IsHex64 resourceId → newId ≠ resourceId) := by
  obtain ⟨q, ip, hq, hip, hid, htok⟩ :=
    create_ok_charact ext rng cfg td r resourceId (some P) version tok newId hcr
  have hhex : IsHex64 newId := by rw [hid]; exact sha256Hex_isHex64 _
  have hne : newId ≠ "" := by
    intro h
    have h64 := hhex.1
    rw [h] at h64
    simp [String.length] at h64
  refine ⟨{ identifier := some newId,
            properties := setKey (setKey P "version" (.vstr version))
              "integrity" (.vnum q) },
    ?_, rfl, ?_, ?_, hhex, ?_⟩
  · rw [htok]
    have hdec := decode_createToken cfg newId
      (some (setKey (setKey ((some P : Option Props).getD []) "version" (.vstr version))
        "integrity" (.vnum q))) hne
    simpa using hdec
  · show getKey (setKey (setKey P "version" (.vstr version))
      "integrity" (.vnum q)) "version" = some (.vstr version)
    rw [getKey_setKey_ne _ _ _ _ (by decide), getKey_setKey_self]
  · intro k v hkv hki hP
    show getKey (setKey (setKey P "version" (.vstr version))
      "integrity" (.vnum q)) k = some v
    rw [getKey_setKey_ne _ _ _ _ (Ne.symm hki), getKey_setKey_ne _ _ _ _ (Ne.symm hkv)]
    exact hP
  · intro hnid heq
    exact hnid (heq ▸ hhex)

/-- A caller-supplied properties map that already binds `version`. -/
def propsCEx : Props := [("version", .vstr "0.9")]

/-- The identifier `create` derives at the counterexample's inputs. -/
def idCEx : String :=
  sha256Hex ("testResourceId" ++ jsNumToString (pepperOf "127.0.0.1") ++
    "127.0.0.1" ++ "b-rng")

/-- The token `create` signs at the counterexample's inputs: the caller's
`version ↦ "0.9"` entry has been overwritten. -/
def tokCEx : Token :=
  createToken idCEx (some [("version", .vstr "1.0"), ("integrity", .vnum 1)]) cfgW

set_option maxRecDepth 100000 in
/-- C1 (counterexample).  With `P = {version: "0.9"}` and `V = "1.0"`,
`create` succeeds and `decode` yields claims, but the decoded properties map
`version` to `"1.0"`, not to `P`'s `"0.9"`: the decoded properties are not a
superset of `P`. -/
theorem c1_counterexample :
    create collabW "b-rng" cfgW [] reqW "testResourceId" (some propsCEx) "1.0" =
      .ok (tokCEx, idCEx) ∧
    decode cfgW tokCEx =
      .ok { identifier := some idCEx,
            properties := [("version", .vstr "1.0"), ("integrity", .vnum 1)] } ∧
    getKey propsCEx "version" = some (.vstr "0.9") ∧
    getKey [("version", PropVal.vstr "1.0"), ("integrity", PropVal.vnum 1)] "version" ≠
      some (.vstr "0.9") := by
  refine ⟨by decide, by decide, by decide, by decide⟩

/-- The caller-supplied properties map of the witnesses. -/
def propsC1W : Props := [("role", .vstr "admin")]

/-- The identifier derived at the witness inputs (the test request, resource
id `testResourceId`, fresh value `a-rng`). -/
def idC1W : String :=
  sha256Hex ("testResourceId" ++ jsNumToString (pepperOf "127.0.0.1") ++
    "127.0.0.1" ++ "a-rng")

/-- The token signed at the witness inputs. -/
def tokC1W : Token :=
  createToken idC1W
    (some (setKey (setKey propsC1W "version" (.vstr "1.0")) "integrity" (.vnum 1))) cfgW

set_option maxRecDepth 100000 in
/-- Witness for C1 (amended) at the test fixture. -/
theorem c1_roundtrip_amended_witness :
    ∃ claims, decode cfgW tokC1W = .ok claims ∧
      claims.identifier = some idC1W ∧
      getKey claims.properties "version" = some (.vstr "1.0") ∧
      (∀ k v, k ≠ "version" → k ≠ "integrity" → getKey propsC1W k = some v →
        getKey claims.properties k = some v) ∧
      IsHex64 idC1W ∧
      (¬ IsHex64 "testResourceId" → idC1W ≠ "testResourceId") :=
  c1_roundtrip_amended collabW "a-rng" cfgW [] reqW "testResourceId" propsC1W "1.0"
    tokC1W idC1W (by decide)

end Janus

namespace Janus

/-- C6 (amended).  The identifier is the 64-hex-character SHA-256 digest of
resource id, pepper, remote address and the fresh random value, where the
pepper is the IEEE-754 double product of the address's character codes,
rendered through ECMAScript Number-to-String.  As long as every running
product stays below `2 ^ 53` the double product is the exact (untruncated)
integer product and its rendering is its exact decimal digits — which,
being below `2 ^ 64`, coincides with its own value modulo `2 ^ 64`, so no
wraparound is observable in that regime.  Beyond `2 ^ 53` the product is
rounded, not wrapped, and rendered as the shortest round-tripping decimal
(see the counterexample). -/
theorem c6_identifier_amended (ext : Collab) (rng : String) (cfg : Config)
    (td : List TrainingExample) (r : Request) (resourceId : String)
    (properties : Option Props) (version : String) (ip : String) (tok : Token)
    (newId : String)
    (hip : r.remoteAddress = some ip)
    (hsmall : ∀ k, k ≤ (charCodes ip).length → ((charCodes ip).take k).prod < 2 ^ 53)
    (hcr : create ext rng cfg td r resourceId properties version = .ok (tok, newId)) :
    newId = sha256Hex (resourceId ++ Nat.repr ((charCodes ip).prod) ++ ip ++ rng) ∧
    (charCodes ip).prod % 2 ^ 64 = (charCodes ip).prod ∧
    IsHex64 newId := by
  obtain ⟨q, ip2, hq, hip2, hid, htok⟩ :=
    create_ok_charact ext rng cfg td r resourceId properties version tok newId hcr
  have hipeq : ip2 = ip := by
    rw [hip] at hip2
    injection hip2 with h
    exact h.symm
  subst hipeq
  have hprod : (charCodes ip2).prod < 2 ^ 53 := by
    have h := hsmall (charCodes ip2).length le_rfl
    simpa using h
  have hstr : jsNumToString (pepperOf ip2) = Nat.repr (charCodes ip2).prod := by
    rw [pepperOf_exact ip2 hsmall]
    simp only [jsNumToString]
    rw [if_pos hprod]
  refine ⟨by rw [hid, hstr], Nat.mod_eq_of_lt (lt_trans hprod (by norm_num)), ?_⟩
  rw [hid]
  exact sha256Hex_isHex64 _

set_option maxRecDepth 100000 in
/-- Witness for C6 (amended) at the test fixture: every running product of
`"127.0.0.1"`'s character codes stays below `2 ^ 53`. -/
theorem c6_identifier_amended_witness :
    idC1W = sha256Hex ("testResourceId" ++ Nat.repr ((charCodes "127.0.0.1").prod) ++
      "127.0.0.1" ++ "a-rng") ∧
    (charCodes "127.0.0.1").prod % 2 ^ 64 = (charCodes "127.0.0.1").prod ∧
    IsHex64 idC1W :=
  c6_identifier_amended collabW "a-rng" cfgW [] reqW "testResourceId"
    (some propsC1W) "1.0" "127.0.0.1" tokC1W idC1W rfl (by decide) (by decide)

/-- A remote address of ten `'9'`s: the exact product of its character codes
is `57 ^ 10 ≈ 3.6e17`, above `2 ^ 53`, so the double accumulator rounds. -/
def ipC6 : String := "9999999999"

/-- The request of the test fixture with the long numeric address. -/
def reqC6 : Request := { reqW with remoteAddress := some ipC6 }

/-- The identifier the code derives at the C6 counterexample's inputs. -/
def idC6 : String := sha256Hex ("res" ++ jsNumToString (pepperOf ipC6) ++ ipC6 ++ "c-rng")

/-- The token the code signs there. -/
def tokC6 : Token :=
  createToken idC6 (some (setKey (setKey [] "version" (.vstr "1.0"))
    "integrity" (.vnum 1))) cfgW

set_option maxRecDepth 100000 in
/-- C6 (counterexample).  At the address `"9999999999"` the code's pepper is
the rounded double `362033331456891264`, concatenated as its shortest
round-tripping decimal `"362033331456891260"` (what `String(pepper)` prints
in Node), while the exact character-code product is the odd number
`362033331456891249`; the product is below `2 ^ 64`, so width-64 wraparound
would leave it untouched, yet the derived identifier differs from the one
the claim's modular pepper would give. -/
theorem c6_counterexample :
    create collabW "c-rng" cfgW [] reqC6 "res" none "1.0" = .ok (tokC6, idC6) ∧
    pepperOf ipC6 = .fin 362033331456891264 ∧
    jsNumToString (pepperOf ipC6) = "362033331456891260" ∧
    (charCodes ipC6).prod % 2 ^ 64 = (charCodes ipC6).prod ∧
    jsNumToString (pepperOf ipC6) ≠ Nat.repr ((charCodes ipC6).prod % 2 ^ 64) ∧
    idC6 ≠ sha256Hex ("res" ++ Nat.repr ((charCodes ipC6).prod % 2 ^ 64) ++
      ipC6 ++ "c-rng") := by
  refine ⟨by decide, by decide, by decide, by decide, by decide, by decide⟩

/-- C9.  Two successful `create` calls on the same request, resource id and
version that differ only in the fresh random value hash two *different*
derivation strings, so equal identifiers would exhibit a SHA-256 collision;
and both tokens record exactly the same integrity score, because the feature
extraction and the (deterministically modelled) scorer depend only on the
request, the configuration and the training store. -/
theorem c9_fresh_identifiers (ext : Collab) (cfg : Config)
    (td : List TrainingExample) (r : Request) (resourceId version : String)
    (P1 P2 : Option Props) (u1 u2 : String) (t1 t2 : Token) (i1 i2 : String)
    (hu : u1 ≠ u2)
    (h1 : create ext u1 cfg td r resourceId P1 version = .ok (t1, i1))
    (h2 : create ext u2 cfg td r resourceId P2 version = .ok (t2, i2)) :
    (i1 = i2 → Collision sha256Hex) ∧
    getKey t1.payload.properties "integrity" = getKey t2.payload.properties "integrity" := by
  obtain ⟨q1, ip1, hq1, hip1, hid1, htok1⟩ :=
    create_ok_charact ext u1 cfg td r resourceId P1 version t1 i1 h1
  obtain ⟨q2, ip2, hq2, hip2, hid2, htok2⟩ :=
    create_ok_charact ext u2 cfg td r resourceId P2 version t2 i2 h2
  have hipeq : ip2 = ip1 := by
    rw [hip1] at hip2
    injection hip2 with h
    exact h.symm
  subst hipeq
  have hqeq : q2 = q1 := by
    rw [hq1] at hq2
    injection hq2 with h
    exact h.symm
  subst hqeq
  constructor
  · intro hii
    refine ⟨resourceId ++ jsNumToString (pepperOf ip2) ++ ip2 ++ u1,
            resourceId ++ jsNumToString (pepperOf ip2) ++ ip2 ++ u2, ?_, ?_⟩
    · intro hcontra
      exact hu (string_append_cancel hcontra)
    · rw [← hid1, ← hid2, hii]
  · rw [htok1, htok2]
    show getKey (setKey (setKey (P1.getD []) "version" (.vstr version))
        "integrity" (.vnum q2)) "integrity" =
      getKey (setKey (setKey (P2.getD []) "version" (.vstr version))
        "integrity" (.vnum q2)) "integrity"
    rw [getKey_setKey_self, getKey_setKey_self]

/-- The identifier of the second witness call, with fresh value `b-rng`. -/
def idC9 : String :=
  sha256Hex ("testResourceId" ++ jsNumToString (pepperOf "127.0.0.1") ++
    "127.0.0.1" ++ "b-rng")

/-- The token of the second witness call. -/
def tokC9 : Token :=
  createToken idC9
    (some (setKey (setKey propsC1W "version" (.vstr "1.0")) "integrity" (.vnum 1))) cfgW

set_option maxRecDepth 100000 in
/-- Witness for C9: two concrete `create` runs differing only in the fresh
random value. -/
theorem c9_fresh_identifiers_witness :
    (idC1W = idC9 → Collision sha256Hex) ∧
    getKey tokC1W.payload.properties "integrity" =
      getKey tokC9.payload.properties "integrity" :=
  c9_fresh_identifiers collabW cfgW [] reqW "testResourceId" "1.0"
    (some propsC1W) (some propsC1W) "a-rng" "b-rng" tokC1W tokC9 idC1W idC9
    (by decide) (by decide) (by decide)

set_option maxRecDepth 100000 in
/-- Witness for C10 at the test fixture. -/
theorem c10_properties_mutation_witness :
    ∃ q, calculate collabW cfgW [] reqW = .ok q ∧
      tokC1W.payload.properties =
        setKey (setKey ((some propsC1W : Option Props).getD []) "version" (.vstr "1.0"))
          "integrity" (.vnum q) ∧
      getKey tokC1W.payload.properties "version" = some (.vstr "1.0") ∧
      getKey tokC1W.payload.properties "integrity" = some (.vnum q) ∧
      (∀ k v, k ≠ "version" → k ≠ "integrity" →
        getKey ((some propsC1W : Option Props).getD []) k = some v →
        getKey tokC1W.payload.properties k = some v) :=
  c10_properties_mutation collabW "a-rng" cfgW [] reqW "testResourceId"
    (some propsC1W) "1.0" tokC1W idC1W (by decide)

end Janus
